import Mathlib

/-!
Verification of the arbitration-data ingestion pipeline and natural-language
query matcher (files `data_processor.py`, `query_engine.py`).

Strings are embedded as lists of character codes (`List Nat`); Python's
ASCII-relevant case mapping is modelled on codes.  Monetary amounts are
embedded as rationals, dates as integer day numbers; nullable cells are
`Option` values (pandas `NaN`/`None` becomes `none`).
-/

namespace LawFirm

/-- A Lean string literal, as the list of its character codes.  Used to write
down the concrete strings appearing in the Python source. -/
def codes (s : String) : List Nat :=
  s.toList.map Char.toNat

/-- Python `str.lower` on one character code (ASCII range, which covers every
character the pipeline's keyword tests use). -/
def lowerCode (c : Nat) : Nat :=
  if 65 ≤ c ∧ c ≤ 90 then c + 32 else c

/-- Python `str.upper` on one character code (ASCII range). -/
def upperCode (c : Nat) : Nat :=
  if 97 ≤ c ∧ c ≤ 122 then c - 32 else c

/-- Python `str.lower` on a whole string. -/
def lowerStr (s : List Nat) : List Nat :=
  s.map lowerCode

/-- Python `str.upper` on a whole string. -/
def upperStr (s : List Nat) : List Nat :=
  s.map upperCode

/-- Python `str.capitalize`: first character upper-cased, the rest
lower-cased. -/
def capitalizeStr : List Nat → List Nat
  | [] => []
  | c :: cs => upperCode c :: cs.map lowerCode

/-- Python's substring test `pat in s`: `pat` occurs contiguously in `s`. -/
def strContains : List Nat → List Nat → Bool
  | [], pat => pat.isEmpty
  | c :: cs, pat => pat.isPrefixOf (c :: cs) || strContains cs pat

/-- `data_processor.py:583-613` (`DataProcessor._standardize_disposition`) on a
non-null value: lower-case the input, then run the substring rule chain;
unrecognized values fall through to `value.capitalize()`. -/
def standardizeDisposition (value : List Nat) : List Nat :=
  let v := lowerStr value
  if strContains v (codes "settled") || strContains v (codes "settlement") then
    codes "Settled"
  else if strContains v (codes "dismissed") && strContains v (codes "merit") then
    codes "Dismissed on the Merits"
  else if strContains v (codes "dismissed") || strContains v (codes "dismissal") then
    codes "Dismissed"
  else if strContains v (codes "withdrawn") then
    codes "Withdrawn"
  else if strContains v (codes "awarded") || strContains v (codes "award") then
    codes "Awarded"
  else if strContains v (codes "administrative") || strContains v (codes "admin") then
    codes "Administrative"
  else
    capitalizeStr v

/-- `_standardize_disposition` including its `None` passthrough
(`data_processor.py:593-594`). -/
def standardizeDispositionOpt : Option (List Nat) → Option (List Nat)
  | none => none
  | some v => some (standardizeDisposition v)

/-- The `Disposition_Type` value a pipeline record carries after
`_clean_dataframe` (standardization, `data_processor.py:526`) and
`_final_cleaning` (null fill with `"Unknown"`, `data_processor.py:682`). -/
def pipelineDisposition : Option (List Nat) → List Nat
  | none => codes "Unknown"
  | some v => standardizeDisposition v

/-- The pair of outcome flags of one record. -/
structure Flags where
  consumer : Bool
  business : Bool
deriving DecidableEq, Repr

/-- pandas `df[col].str.contains(pat, case=False, na=False)` on one cell:
case-insensitive containment, null cells count as `False`.  `pat` is given
already lower-cased (as the call sites' literals are, up to case folding). -/
def ciContains (cell : Option (List Nat)) (pat : List Nat) : Bool :=
  match cell with
  | none => false
  | some v => strContains (lowerStr v) pat

/-- pandas `df['Award_Amount'] > 0` on one cell (null compares `False`). -/
def awardPos : Option ℚ → Bool
  | none => false
  | some a => decide (0 < a)

/-- pandas `df['Award_Amount'] == 0` on one cell (null compares `False`). -/
def awardZero : Option ℚ → Bool
  | none => false
  | some a => decide (a = 0)

/-- `data_processor.py:279-320` (`DataProcessor._calculate_prevailed_flags`)
on one record: starting from the record's current flags `f0` (freshly created
columns are initialized to `False`, lines 293-296), set `Consumer_Prevailed`
on the award-and-positive-amount mask, then set `Business_Prevailed` on the
dismiss/withdrawn/zero-award mask, then force both flags to `False` on the
settlement mask (lines 316-318, applied last). -/
def calcPrevailedFlags (d : Option (List Nat)) (a : Option ℚ) (f0 : Flags) : Flags :=
  let f1 := if ciContains d (codes "award") && awardPos a then
              { f0 with consumer := true } else f0
  let f2 := if (ciContains d (codes "dismiss") || ciContains d (codes "withdrawn"))
               || (ciContains d (codes "award") && awardZero a) then
              { f1 with business := true } else f1
  if ciContains d (codes "settle") then ⟨false, false⟩ else f2

/-- `data_processor.py:322-350` (`DataProcessor._calculate_case_duration`) on
one record: `Date_Closed - Date_Filed` in days when both dates parsed, else
the `Case_Duration_Days` cell stays null.  Dates are day numbers. -/
def caseDuration (dateFiled dateClosed : Option Int) : Option Int :=
  match dateFiled, dateClosed with
  | some f, some c => some (c - f)
  | _, _ => none

/-- `data_processor.py:405-408`: the exact-match tier of `_map_column` —
return the first alias that occurs verbatim among the existing columns. -/
def findExact (names cols : List (List Nat)) : Option (List Nat) :=
  names.find? (fun n => cols.contains n)

/-- `data_processor.py:410-415`: the case-insensitive tier — for each alias in
order, return the first existing column whose lower-casing equals the alias's
lower-casing. -/
def findCaseInsensitive (names cols : List (List Nat)) : Option (List Nat) :=
  match names with
  | [] => none
  | n :: rest =>
    match cols.find? (fun c => lowerStr c == lowerStr n) with
    | some c => some c
    | none => findCaseInsensitive rest cols

/-- `data_processor.py:420-421`: the partial-match condition —
`(name.lower() in col.lower() or col.lower() in name.lower()) and
(len(name) >= 4 or len(col) >= 4)`. -/
def partialPred (n c : List Nat) : Bool :=
  (strContains (lowerStr c) (lowerStr n) || strContains (lowerStr n) (lowerStr c))
    && (decide (4 ≤ n.length) || decide (4 ≤ c.length))

/-- `data_processor.py:417-422`: the partial-match tier — for each alias in
order, the first existing column satisfying `partialPred`. -/
def findPartial (names cols : List (List Nat)) : Option (List Nat) :=
  match names with
  | [] => none
  | n :: rest =>
    match cols.find? (fun c => partialPred n c) with
    | some c => some c
    | none => findPartial rest cols

/-- `data_processor.py:390-424` (`DataProcessor._map_column`): the three tiers
in order, `none` when every tier fails. -/
def mapColumn (names cols : List (List Nat)) : Option (List Nat) :=
  match findExact names cols with
  | some r => some r
  | none =>
    match findCaseInsensitive names cols with
    | some r => some r
    | none => findPartial names cols

/-- `data_processor.py:456-467`: column resolution for one canonical field in
`_process_dataframe` — `_map_column`, then the last-resort direct
case-insensitive match of a raw column against the canonical column name. -/
def resolveColumn (names cols : List (List Nat)) (standardCol : List Nat) :
    Option (List Nat) :=
  match mapColumn names cols with
  | some r => some r
  | none => cols.find? (fun c => upperStr c == upperStr standardCol)

/-- `data_processor.py:15`: the AAA alias list for the `case_id` field. -/
def aliasesCaseIdAAA : List (List Nat) :=
  [codes "Case ID", codes "Case Number", codes "Case No.", codes "Case_ID",
   codes "CASE_ID"]

/-- The substring-tier condition as the specification words it: mutual
substring containment, allowed only when the SHORTER of the two strings has
length ≥ 4. -/
def claimSubstringMatch (n c : List Nat) : Bool :=
  (strContains (lowerStr c) (lowerStr n) || strContains (lowerStr n) (lowerStr c))
    && decide (4 ≤ min n.length c.length)

/-- One row of the combined dataframe as `_handle_duplicates` sees it
(`data_processor.py:615-663`).  `Case_ID` and `Arbitrator_Name` are non-null
for every row reaching this point: `_process_dataframe` filters null
`Case_ID` rows (line 487) and fills `Arbitrator_Name` (line 481).  Cells of
the remaining columns are kept as optional strings in `otherCells`; only
their null-ness matters to deduplication. -/
structure DRow where
  caseId : List Nat
  arbitratorName : List Nat
  respondentName : Option (List Nat)
  dateFiled : Option Int
  otherCells : List (Option (List Nat))
deriving DecidableEq, Repr

/-- `case_records.notnull().sum(axis=1)` for one row
(`data_processor.py:636`): the number of non-null cells; `Case_ID` and
`Arbitrator_Name` always count. -/
def numNonNull (r : DRow) : Nat :=
  2 + (if r.respondentName.isSome then 1 else 0)
    + (if r.dateFiled.isSome then 1 else 0)
    + r.otherCells.countP (fun c => c.isSome)

/-- Rows paired with their dataframe index, starting at `k`. -/
def enumFromK (k : Nat) : List DRow → List (Nat × DRow)
  | [] => []
  | x :: xs => (k, x) :: enumFromK (k + 1) xs

/-- pandas `completeness.idxmax()` accumulator: scan rows in order, keeping
the first row attaining the running maximum completeness
(`data_processor.py:639`). -/
def bestGo (b : Nat × DRow) : List (Nat × DRow) → Nat × DRow
  | [] => b
  | p :: ps => bestGo (if numNonNull b.2 < numNonNull p.2 then p else b) ps

/-- `idxmax` over a whole group: `none` on an empty group. -/
def bestOf : List (Nat × DRow) → Option (Nat × DRow)
  | [] => none
  | p :: ps => some (bestGo p ps)

/-- Number of rows of `l` carrying Case_ID `id`. -/
def countId (l : List (Nat × DRow)) (id : List Nat) : Nat :=
  l.countP (fun p => p.2.caseId == id)

/-- pandas `Series.unique()`: deduplicate keeping first occurrences. -/
def uniqueFirstAux {α : Type} [BEq α] (seen : List α) : List α → List α
  | [] => []
  | x :: xs =>
    if seen.contains x then uniqueFirstAux seen xs
    else x :: uniqueFirstAux (x :: seen) xs

/-- pandas `Series.unique()` over a list. -/
def uniqueFirst {α : Type} [BEq α] (l : List α) : List α :=
  uniqueFirstAux [] l

/-- `duplicates['Case_ID'].unique()` (`data_processor.py:628-632`): the
Case_IDs occurring at least twice, in first-occurrence order. -/
def dupCaseIds (l : List (Nat × DRow)) : List (List Nat) :=
  uniqueFirst ((l.map (fun p => p.2.caseId)).filter (fun id => 2 ≤ countId l id))

/-- One iteration of the pass-1 loop (`data_processor.py:632-643`): re-query
the current dataframe for the rows of this Case_ID, find the most complete
one (`idxmax`, first on ties), drop the rest of the group. -/
def pass1Step (cur : List (Nat × DRow)) (id : List Nat) : List (Nat × DRow) :=
  let grp := cur.filter (fun p => p.2.caseId == id)
  match bestOf grp with
  | none => cur
  | some w => cur.filter (fun p => !(p.2.caseId == id) || p.1 == w.1)

/-- Pass 1 of `_handle_duplicates`: iterate the `pass1Step` drop over every
duplicated Case_ID.  (The guard at line 626 — `Case_ID` present and not
all-null — always holds for pipeline input; on an empty frame `dupCaseIds`
is empty and the pass is the identity, matching the skipped branch.) -/
def handleDupsPass1 (l : List (Nat × DRow)) : List (Nat × DRow) :=
  (dupCaseIds l).foldl pass1Step l

/-- The pass-2 grouping key `(Arbitrator_Name, Respondent_Name, Date_Filed)`
(`data_processor.py:648`); pandas `groupby` drops rows whose key has a null
component, so the key is `none` when respondent or date is null. -/
def keyOf (r : DRow) : Option (List Nat × List Nat × Int) :=
  match r.respondentName, r.dateFiled with
  | some resp, some d => some (r.arbitratorName, resp, d)
  | _, _ => none

/-- Number of rows of `l` carrying the (fully non-null) pass-2 key `k`. -/
def countKey (l : List (Nat × DRow)) (k : List Nat × List Nat × Int) : Nat :=
  l.countP (fun p => keyOf p.2 == some k)

/-- The pass-2 group keys: non-null triples occurring at least twice.
(pandas `groupby` yields them key-sorted; the processing order is immaterial
because the groups are disjoint, so first-occurrence order is used.) -/
def dupKeys (l : List (Nat × DRow)) : List (List Nat × List Nat × Int) :=
  uniqueFirst ((l.filterMap (fun p => keyOf p.2)).filter (fun k => 2 ≤ countKey l k))

/-- One iteration of the pass-2 loop (`data_processor.py:652-661`): the group
comes from the `potential_duplicates` snapshot taken before any pass-2 drop,
the drop applies to the current dataframe. -/
def pass2Step (snapshot : List (Nat × DRow)) (cur : List (Nat × DRow))
    (k : List Nat × List Nat × Int) : List (Nat × DRow) :=
  let grp := snapshot.filter (fun p => keyOf p.2 == some k)
  match bestOf grp with
  | none => cur
  | some w => cur.filter (fun p => !(keyOf p.2 == some k) || p.1 == w.1)

/-- Pass 2 of `_handle_duplicates` (`data_processor.py:646-661`). -/
def handleDupsPass2 (l : List (Nat × DRow)) : List (Nat × DRow) :=
  (dupKeys l).foldl (pass2Step l) l

/-- `data_processor.py:615-663` (`DataProcessor._handle_duplicates`): both
passes, returning plain rows. -/
def handleDuplicates (rows : List DRow) : List DRow :=
  (handleDupsPass2 (handleDupsPass1 (enumFromK 0 rows))).map Prod.snd

/-- Concrete test record from the specification's dedup example: the 5-field
variant of case `ARB-2020-1001` (Case_ID, Arbitrator, Respondent and two
other cells non-null). -/
def row5ex : DRow :=
  ⟨codes "ARB-2020-1001", codes "Jane Doe", some (codes "Acme Corp"), none,
   [some (codes "Settled"), some (codes "AAA"), none, none, none, none]⟩

/-- The 8-field variant of case `ARB-2020-1001` (three more non-null cells
than `row5ex`). -/
def row8ex : DRow :=
  ⟨codes "ARB-2020-1001", codes "John Q. Lawyer", some (codes "Acme Corp"),
   some 18300,
   [some (codes "Settled"), some (codes "AAA"), some (codes "5000"),
    some (codes "10000"), none, none]⟩

/-- Boolean pairwise check over a list. -/
def pairwiseB {α : Type} (p : α → α → Bool) : List α → Bool
  | [] => true
  | x :: xs => xs.all (p x) && pairwiseB p xs

/-- "No two rows share the same non-`"Unknown"` Case_ID", as a decidable
check. -/
def noSharedNonUnknownCaseId (rows : List DRow) : Bool :=
  pairwiseB (fun r s => !(r.caseId == s.caseId) || (r.caseId == codes "Unknown")) rows

/-! ### The natural-language query matcher (`query_engine.py`) -/

/-- A single-quote character, used in the matcher's message templates. -/
def apos : List Nat := [39]

/-- Whitespace character codes recognized by Python `str.strip`/`str.split`
(space, tab, newline, carriage return — the forms a query can contain). -/
def isSpaceCode (c : Nat) : Bool :=
  c == 32 || c == 9 || c == 10 || c == 13

/-- Python `str.strip()`. -/
def trimStr (s : List Nat) : List Nat :=
  ((s.dropWhile isSpaceCode).reverse.dropWhile isSpaceCode).reverse

/-- The characters of `'had'`, for `str.rstrip('had')`
(`query_engine.py:60`). -/
def isHadCode (c : Nat) : Bool :=
  c == 104 || c == 97 || c == 100

/-- Python `str.rstrip('had')`: drop trailing characters drawn from
`{h,a,d}`. -/
def rstripHAD (s : List Nat) : List Nat :=
  (s.reverse.dropWhile isHadCode).reverse

/-- Python `str.split()` accumulator: collect the current word (reversed) and
emit it at each whitespace run or at the end. -/
def splitWSAux : List Nat → List Nat → List (List Nat)
  | [], acc => if acc.isEmpty then [] else [acc.reverse]
  | c :: cs, acc =>
    if isSpaceCode c then
      if acc.isEmpty then splitWSAux cs [] else acc.reverse :: splitWSAux cs []
    else splitWSAux cs (c :: acc)

/-- Python `str.split()`: whitespace-separated words, no empties. -/
def splitWS (s : List Nat) : List (List Nat) :=
  splitWSAux s []

/-- Decimal rendering of a natural number, as character codes (Python
`str(n)` on the non-negative counts the matcher prints). -/
def natToCodes (n : Nat) : List Nat :=
  (Nat.toDigits 10 n).map Char.toNat

/-- Parenthesis balance scanner for regular-expression compilation:
`re.compile` rejects a pattern with unmatched `(` or `)`. -/
def parensOk : List Nat → Nat → Bool
  | [], d => d == 0
  | c :: cs, d =>
    if c == 40 then parensOk cs (d + 1)
    else if c == 41 then (if d == 0 then false else parensOk cs (d - 1))
    else parensOk cs d

/-- A regex pattern's parentheses are balanced (necessary for
`re.compile` to succeed; the pattern `"(smit"` fails this). -/
def parensBalanced (s : List Nat) : Bool :=
  parensOk s 0

/-- Drop parentheses from a pattern: a balanced group `(x)` matches exactly
where `x` matches, so containment for patterns whose only metacharacters are
parentheses is plain-substring containment of the pattern minus parens.
(`pandas Series.str.contains` defaults to `regex=True`; the names these call
sites pass are query text, modelled here on the parenthesis fragment.) -/
def stripParens (s : List Nat) : List Nat :=
  s.filter (fun c => !(c == 40 || c == 41))

/-- One row of the dataset as the query matcher reads it
(`Arbitrator_Name`, `Respondent_Name`, `Disposition_Type`, `Award_Amount`,
`Case_ID`). -/
structure QRow where
  arbitrator : List Nat
  respondent : Option (List Nat)
  disposition : Option (List Nat)
  award : Option ℚ
  caseId : List Nat
deriving DecidableEq, Repr

/-- Strip a literal prefix, returning the remainder. -/
def dropLit (pat s : List Nat) : Option (List Nat) :=
  if pat.isPrefixOf s then some (s.drop pat.length) else none

/-- The lazy group `(.*?)` followed by a terminator: consume the shortest
newline-free prefix whose remainder satisfies `term`.  (`.` does not match a
newline in Python `re`.) -/
def lazyGroup (term : List Nat → Bool) : List Nat → Option (List Nat)
  | [] => if term [] then some [] else none
  | c :: cs =>
    if term (c :: cs) then some []
    else if c == 10 then none
    else (lazyGroup term cs).map (fun m => c :: m)

/-- `re.search`: try a match anchored at each start position, left to
right. -/
def searchPos {α : Type} (f : List Nat → Option α) : List Nat → Option α
  | [] => f []
  | l@(_ :: cs) =>
    match f l with
    | some x => some x
    | none => searchPos f cs

/-- Terminator `(\?|$|had)` of pattern 1 (`query_engine.py:21`); `$` matches
at end of string or before a trailing newline. -/
def p1Term (rest : List Nat) : Bool :=
  rest.headD 0 == 63 || rest.isEmpty || rest == [10] ||
    (codes "had").isPrefixOf rest

/-- Pattern 1, `how many arbitrations? has (arbitrator )?(.*?)(\?|$|had)`,
anchored at one position; returns group 2.  The optional `s` and the optional
`arbitrator ` group are greedy with backtracking. -/
def p1At (s : List Nat) : Option (List Nat) :=
  match dropLit (codes "how many arbitration") s with
  | none => none
  | some r0 =>
    let r1? :=
      match dropLit (codes "s has ") r0 with
      | some r => some r
      | none => dropLit (codes " has ") r0
    match r1? with
    | none => none
    | some r1 =>
      match dropLit (codes "arbitrator ") r1 with
      | some r2 =>
        match lazyGroup p1Term r2 with
        | some m => some m
        | none => lazyGroup p1Term r1
      | none => lazyGroup p1Term r1

/-- Terminator ` ruled for the (complainant|consumer)` of pattern 2
(`query_engine.py:26`). -/
def p2Term (rest : List Nat) : Bool :=
  (codes " ruled for the complainant").isPrefixOf rest ||
    (codes " ruled for the consumer").isPrefixOf rest

/-- The lazy group 2 of pattern 2, `how many times has (arbitrator )?(.*?)
ruled for the (complainant|consumer)`, scanned from position `r`; returns
(group 2, group 3). -/
def p2Scan (r : List Nat) : Option (List Nat × List Nat) :=
  match lazyGroup p2Term r with
  | some m =>
    some (m, if (codes " ruled for the complainant").isPrefixOf (r.drop m.length)
             then codes "complainant" else codes "consumer")
  | none => none

/-- Pattern 2 anchored at one position (continued): the optional
`arbitrator ` group is greedy with backtracking. -/
def p2At (s : List Nat) : Option (List Nat × List Nat) :=
  match dropLit (codes "how many times has ") s with
  | none => none
  | some r1 =>
    match dropLit (codes "arbitrator ") r1 with
    | some r2 =>
      match p2Scan r2 with
      | some x => some x
      | none => p2Scan r1
    | none => p2Scan r1

/-- Terminator `(\?|$|\.)` of patterns 3 (without the dot), 4 and 5. -/
def term3 (rest : List Nat) : Bool :=
  rest.headD 0 == 63 || rest.headD 0 == 46 || rest.isEmpty || rest == [10]

/-- Terminator `(\?|$)` of pattern 3 (`query_engine.py:31`). -/
def termQ (rest : List Nat) : Bool :=
  rest.headD 0 == 63 || rest.isEmpty || rest == [10]

/-- Pattern 3, `what was the average award given by (arbitrator )?(.*?)(\?|$)`,
anchored; returns group 2. -/
def p3At (s : List Nat) : Option (List Nat) :=
  match dropLit (codes "what was the average award given by ") s with
  | none => none
  | some r1 =>
    match dropLit (codes "arbitrator ") r1 with
    | some r2 =>
      match lazyGroup termQ r2 with
      | some m => some m
      | none => lazyGroup termQ r1
    | none => lazyGroup termQ r1

/-- The tail of pattern 4 after the optional ` the`:
` arbitrations? handled by (arbitrator )?(.*?)(\?|$|\.)`. -/
def p4Tail (r0 : List Nat) : Option (List Nat) :=
  match dropLit (codes " arbitration") r0 with
  | none => none
  | some rA =>
    let rB? :=
      match dropLit (codes "s handled by ") rA with
      | some r => some r
      | none => dropLit (codes " handled by ") rA
    match rB? with
    | none => none
    | some rB =>
      match dropLit (codes "arbitrator ") rB with
      | some rC =>
        match lazyGroup term3 rC with
        | some m => some m
        | none => lazyGroup term3 rB
      | none => lazyGroup term3 rB

/-- Pattern 4, `list the names of all( the)? arbitrations? handled by
(arbitrator )?(.*?)(\?|$|\.)` (`query_engine.py:36`), anchored; returns
group 3. -/
def p4At (s : List Nat) : Option (List Nat) :=
  match dropLit (codes "list the names of all") s with
  | none => none
  | some r0 =>
    match dropLit (codes " the") r0 with
    | some rT =>
      match p4Tail rT with
      | some m => some m
      | none => p4Tail r0
    | none => p4Tail r0

/-- Terminator of pattern 5's lazy group 2: the literal
` ruled for the consumer against ` must follow, and the remaining text must
still accommodate `(.*?)(\?|$|\.)`. -/
def p5TermB (rest : List Nat) : Bool :=
  match dropLit (codes " ruled for the consumer against ") rest with
  | none => false
  | some r3 => (lazyGroup term3 r3).isSome

/-- The lazy group 2 of pattern 5, `how many times has (arbitrator )?(.*?)
ruled for the consumer against (.*?)(\?|$|\.)` (`query_engine.py:41`),
scanned from position `r`; returns (group 2, group 3). -/
def p5Scan (r : List Nat) : Option (List Nat × List Nat) :=
  match lazyGroup p5TermB r with
  | some m =>
    match dropLit (codes " ruled for the consumer against ") (r.drop m.length) with
    | some r3 => (lazyGroup term3 r3).map (fun g3 => (m, g3))
    | none => none
  | none => none

/-- Pattern 5 anchored at one position (continued). -/
def p5At (s : List Nat) : Option (List Nat × List Nat) :=
  match dropLit (codes "how many times has ") s with
  | none => none
  | some r1 =>
    match dropLit (codes "arbitrator ") r1 with
    | some r2 =>
      match p5Scan r2 with
      | some x => some x
      | none => p5Scan r1
    | none => p5Scan r1

/-- The fixed intents of `process_natural_language_query`, in dispatch
order. -/
inductive QueryIntent
  | caseCount
  | rulings
  | avgAward
  | listCases
  | specificRulings
  | unknown
deriving DecidableEq, Repr, BEq

/-- `query_engine.py:17-46`: which handler a query is dispatched to — the
first matching pattern wins, `unknown` when none matches. -/
def classifyQuery (q : List Nat) : QueryIntent :=
  let ql := lowerStr q
  if (searchPos p1At ql).isSome then .caseCount
  else if (searchPos p2At ql).isSome then .rulings
  else if (searchPos p3At ql).isSome then .avgAward
  else if (searchPos p4At ql).isSome then .listCases
  else if (searchPos p5At ql).isSome then .specificRulings
  else .unknown

/-- Template of `query_engine.py:67/79/89`. -/
def caseCountMsg (actual : List Nat) (count : Nat) : List Nat :=
  codes "Arbitrator " ++ actual ++ codes " has handled " ++ natToCodes count ++
    codes " arbitration cases in the dataset."

/-- Template of `query_engine.py:91` (and its analogues): the couldn't-find
message for an arbitrator, quoting the cleaned query name. -/
def couldntFindArbMsg (name : List Nat) : List Nat :=
  codes "I couldn" ++ apos ++
    codes "t find any cases for an arbitrator matching " ++ apos ++ name ++
    apos ++ codes " in the dataset."

/-- `query_engine.py:397`: the couldn't-find message for a respondent. -/
def couldntFindRespMsg (name : List Nat) : List Nat :=
  codes "I couldn" ++ apos ++
    codes "t find any cases for a respondent matching " ++ apos ++ name ++
    apos ++ codes " in the dataset."

/-- `query_engine.py:46`: the fixed fallback response. -/
def couldntUnderstandMsg : List Nat :=
  codes "I" ++ apos ++ codes "m sorry, I couldn" ++ apos ++
    codes "t understand your query. Please try rephrasing or use one of the sample queries below."

/-- The token-fallback loop of `_get_arbitrator_case_count`
(`query_engine.py:82-91`): try each word of the cleaned name longer than two
characters as a (regex) containment pattern; a word with unbalanced
parentheses makes `str.contains` raise. -/
def caseCountTokenLoop (name : List Nat) (data : List QRow) :
    List (List Nat) → Except Unit (List Nat)
  | [] => .ok (couldntFindArbMsg name)
  | part :: rest =>
    if 2 < part.length then
      if parensBalanced part = false then .error ()
      else
        match data.find? (fun r => strContains (lowerStr r.arbitrator) (stripParens part)) with
        | some r =>
          .ok (caseCountMsg r.arbitrator
            (data.countP (fun s => s.arbitrator == r.arbitrator)))
        | none => caseCountTokenLoop name data rest
    else caseCountTokenLoop name data rest

/-- `query_engine.py:48-91` (`_get_arbitrator_case_count`): clean the name
(`strip`, `rstrip('had')`, `strip`), then the three resolution tiers.  The
exact tier counts case-insensitive matches (`exact_match.sum()`); the other
tiers count rows exactly equal to the resolved casing.  The partial tier
compiles the cleaned name as a regex (`str.contains`), which raises —
modelled as `.error ()` — when its parentheses are unbalanced. -/
def getArbitratorCaseCount (rawName : List Nat) (data : List QRow) :
    Except Unit (List Nat) :=
  let name := trimStr (rstripHAD (trimStr rawName))
  match data.find? (fun r => lowerStr r.arbitrator == lowerStr name) with
  | some r =>
    .ok (caseCountMsg r.arbitrator
      (data.countP (fun s => lowerStr s.arbitrator == lowerStr name)))
  | none =>
    if parensBalanced (lowerStr name) = false then .error ()
    else
      match data.find? (fun r =>
          strContains (lowerStr r.arbitrator) (stripParens (lowerStr name))) with
      | some r =>
        .ok (caseCountMsg r.arbitrator
          (data.countP (fun s => s.arbitrator == r.arbitrator)))
      | none => caseCountTokenLoop name data (splitWS (lowerStr name))

/-- Case-insensitive cell equality against a query name; a null cell never
matches (these columns are `"Unknown"`-filled in pipeline output, so the
null case does not arise there). -/
def colEqCI (c : Option (List Nat)) (name : List Nat) : Bool :=
  match c with
  | some v => lowerStr v == lowerStr name
  | none => false

/-- Cell containment of an (already paren-stripped, lower-cased) pattern; a
null cell never matches. -/
def colContains (c : Option (List Nat)) (pat : List Nat) : Bool :=
  match c with
  | some v => strContains (lowerStr v) pat
  | none => false

/-- The token-fallback loop shared by the entity resolutions of
`_get_arbitrator_rulings`, `_get_arbitrator_avg_award`,
`_list_arbitrator_cases` and `_get_specific_rulings`. -/
def tokenLoopR (getCol : QRow → Option (List Nat)) (data : List QRow) :
    List (List Nat) → Except Unit (Option (List Nat))
  | [] => .ok none
  | part :: rest =>
    if 2 < part.length then
      if parensBalanced part = false then .error ()
      else
        match data.find? (fun r => colContains (getCol r) (stripParens part)) with
        | some r => .ok (getCol r)
        | none => tokenLoopR getCol data rest
    else tokenLoopR getCol data rest

/-- The tiered entity resolution used by the handlers other than the case
count: exact case-insensitive, regex containment (which can raise), token
fallback.  Returns the first matching row's column value in its stored
casing, `none` when no tier matches. -/
def resolveNameTiers (getCol : QRow → Option (List Nat)) (name : List Nat)
    (data : List QRow) : Except Unit (Option (List Nat)) :=
  match data.find? (fun r => colEqCI (getCol r) name) with
  | some r => .ok (getCol r)
  | none =>
    if parensBalanced (lowerStr name) = false then .error ()
    else
      match data.find? (fun r =>
          colContains (getCol r) (stripParens (lowerStr name))) with
      | some r => .ok (getCol r)
      | none => tokenLoopR getCol data (splitWS (lowerStr name))

/-- Template of `query_engine.py:116/132/143`. -/
def rulingsMsg (actual party : List Nat) (awarded total : Nat) : List Nat :=
  codes "Arbitrator " ++ actual ++ codes " has ruled for the " ++ party ++
    codes " in " ++ natToCodes awarded ++ codes " cases out of " ++
    natToCodes total ++ codes " total cases."

/-- `query_engine.py:93-145` (`_get_arbitrator_rulings`). -/
def getArbitratorRulings (rawName party : List Nat) (data : List QRow) :
    Except Unit (List Nat) :=
  let name := trimStr rawName
  match resolveNameTiers (fun r => some r.arbitrator) name data with
  | .error e => .error e
  | .ok none => .ok (couldntFindArbMsg name)
  | .ok (some actual) =>
    let total := data.countP (fun s => s.arbitrator == actual)
    let awarded := data.countP (fun s =>
      s.arbitrator == actual && s.disposition == some (codes "Awarded"))
    .ok (rulingsMsg actual party awarded total)

/-- Comma-thousands grouping of a reversed digit string. -/
def commaGroupRev (ds : List Nat) : List Nat :=
  if h : ds.length ≤ 3 then ds
  else (ds.take 3) ++ [44] ++ commaGroupRev (ds.drop 3)
termination_by ds.length
decreasing_by
  rw [List.length_drop]
  omega

/-- Python `f"{x:,.2f}"` on the mean award, modelled on rationals: sign,
comma-grouped integer part, two rounded decimals.  (The source formats a
float; this models the printed shape, which no claim exercises in detail.) -/
def formatMoney (q : ℚ) : List Nat :=
  let cents : Nat := (round (|q| * 100) : ℤ).toNat
  let whole := cents / 100
  let frac := cents % 100
  (if q < 0 then [45] else []) ++
    (commaGroupRev (natToCodes whole).reverse).reverse ++ [46] ++
    (if frac < 10 then [48] ++ natToCodes frac else natToCodes frac)

/-- Template of `query_engine.py:173/192/210`. -/
def avgAwardMsg (actual : List Nat) (avg : ℚ) : List Nat :=
  codes "The average award given by Arbitrator " ++ actual ++ codes " is $" ++
    formatMoney avg ++ codes "."

/-- Template of `query_engine.py:175/194/212`. -/
def noAwardDataMsg (actual : List Nat) : List Nat :=
  codes "Award amount data is not available for Arbitrator " ++ actual ++
    codes "."

/-- `query_engine.py:147-214` (`_get_arbitrator_avg_award`): the mean skips
null awards, as pandas `mean()` does. -/
def getArbitratorAvgAward (rawName : List Nat) (data : List QRow) :
    Except Unit (List Nat) :=
  let name := trimStr rawName
  match resolveNameTiers (fun r => some r.arbitrator) name data with
  | .error e => .error e
  | .ok none => .ok (couldntFindArbMsg name)
  | .ok (some actual) =>
    let rows := data.filter (fun r => r.arbitrator == actual)
    let awards := rows.filterMap (fun r => r.award)
    if awards.isEmpty then .ok (noAwardDataMsg actual)
    else .ok (avgAwardMsg actual ((awards.foldl (· + ·) 0) / awards.length))

/-- One line of the case listing (`query_engine.py:249-251`). -/
def caseLine (r : QRow) : List Nat :=
  match r.respondent with
  | some resp => codes "- Case " ++ r.caseId ++ codes " against " ++ resp
  | none => codes "- Case " ++ r.caseId

/-- `"\n".join(...)`. -/
def joinNL : List (List Nat) → List Nat
  | [] => []
  | [x] => x
  | x :: xs => x ++ [10] ++ joinNL xs

/-- Template of `query_engine.py:254`. -/
def listCasesMsg (actual : List Nat) (rows : List QRow) : List Nat :=
  codes "Arbitrator " ++ actual ++ codes " has handled the following " ++
    natToCodes rows.length ++ codes " cases:" ++ [10, 10] ++
    joinNL (rows.map caseLine)

/-- Template of `query_engine.py:260`. -/
def noCasesMsg (actual : List Nat) : List Nat :=
  codes "No cases are available for Arbitrator " ++ actual ++ codes "."

/-- `query_engine.py:216-331` (`_list_arbitrator_cases`). -/
def listArbitratorCases (rawName : List Nat) (data : List QRow) :
    Except Unit (List Nat) :=
  let name := trimStr rawName
  match resolveNameTiers (fun r => some r.arbitrator) name data with
  | .error e => .error e
  | .ok none => .ok (couldntFindArbMsg name)
  | .ok (some actual) =>
    let rows := data.filter (fun r => r.arbitrator == actual)
    if rows.isEmpty then .ok (noCasesMsg actual)
    else .ok (listCasesMsg actual rows)

/-- Template of `query_engine.py:407`: the two-entity answer naming both the
resolved arbitrator and the resolved respondent. -/
def specificRulingsMsg (arb resp : List Nat) (awarded total : Nat) : List Nat :=
  codes "Arbitrator " ++ arb ++ codes " has ruled for the consumer against " ++
    resp ++ codes " in " ++ natToCodes awarded ++ codes " cases out of " ++
    natToCodes total ++ codes " total cases involving both parties."

/-- `query_engine.py:333-407` (`_get_specific_rulings`): resolve both
entities, filter rows to the conjunction, count `Awarded` dispositions. -/
def getSpecificRulings (rawArb rawResp : List Nat) (data : List QRow) :
    Except Unit (List Nat) :=
  let arbName := trimStr rawArb
  let respName := trimStr rawResp
  match resolveNameTiers (fun r => some r.arbitrator) arbName data with
  | .error e => .error e
  | .ok none => .ok (couldntFindArbMsg arbName)
  | .ok (some actualArb) =>
    match resolveNameTiers (fun r => r.respondent) respName data with
    | .error e => .error e
    | .ok none => .ok (couldntFindRespMsg respName)
    | .ok (some actualResp) =>
      let rows := data.filter (fun r =>
        r.arbitrator == actualArb && r.respondent == some actualResp)
      let awarded := rows.countP (fun r => r.disposition == some (codes "Awarded"))
      .ok (specificRulingsMsg actualArb actualResp awarded rows.length)

/-- `query_engine.py:6-46` (`process_natural_language_query`): lower-case the
query, try the five patterns in order, dispatch to the matching handler; the
fixed fallback when none matches.  The result is `.error ()` exactly when
the dispatched handler lets a regex-compilation error escape — the function
has no exception handling. -/
def processNaturalLanguageQuery (query : List Nat) (data : List QRow) :
    Except Unit (List Nat) :=
  let ql := lowerStr query
  match searchPos p1At ql with
  | some g2 => getArbitratorCaseCount (trimStr g2) data
  | none =>
    match searchPos p2At ql with
    | some g => getArbitratorRulings (trimStr g.1) g.2 data
    | none =>
      match searchPos p3At ql with
      | some g2 => getArbitratorAvgAward (trimStr g2) data
      | none =>
        match searchPos p4At ql with
        | some g3 => listArbitratorCases (trimStr g3) data
        | none =>
          match searchPos p5At ql with
          | some g => getSpecificRulings (trimStr g.1) (trimStr g.2) data
          | none => .ok couldntUnderstandMsg

instance : DecidableEq (Except Unit (List Nat)) := fun x y =>
  match x, y with
  | .error (), .error () => isTrue rfl
  | .ok a, .ok b =>
    if h : a = b then isTrue (by rw [h])
    else isFalse (by intro hc; cases hc; exact h rfl)
  | .error (), .ok b => isFalse (by intro hc; cases hc)
  | .ok a, .error () => isFalse (by intro hc; cases hc)

/-- A dataset row with no arbitrator information (`"Unknown"` fill). -/
def qrowUnknown : QRow :=
  ⟨codes "Unknown", some (codes "Unknown"), some (codes "Settled"), none,
   codes "CASE-1"⟩

/-- The arbitrator row of the specification's end-to-end example. -/
def qrowJohn : QRow :=
  ⟨codes "John L. Smith Esq.", some (codes "Acme Corp"),
   some (codes "Awarded"), some 5000, codes "CASE-X"⟩

/-! ### Lemmas about case folding and the disposition standardizer -/

theorem lowerCode_lowerCode (c : Nat) : lowerCode (lowerCode c) = lowerCode c := by
  simp only [lowerCode]
  split_ifs <;> omega

theorem lowerCode_upperCode_lowerCode (c : Nat) :
    lowerCode (upperCode (lowerCode c)) = lowerCode c := by
  simp only [lowerCode, upperCode]
  split_ifs <;> omega

theorem lowerStr_capitalize_lowerStr (s : List Nat) :
    lowerStr (capitalizeStr (lowerStr s)) = lowerStr s := by
  cases s with
  | nil => rfl
  | cons c cs =>
    simp only [lowerStr, capitalizeStr, List.map_cons, List.map_map]
    rw [lowerCode_upperCode_lowerCode c]
    congr 1
    exact List.map_congr_left fun a _ => by
      simp only [Function.comp_apply, lowerCode_lowerCode]

/-- Case analysis on `_standardize_disposition`: the result is one of the six
fixed vocabulary strings, or the capitalized input with every keyword of the
rule chain absent. -/
theorem standardize_cases (v : List Nat) :
    standardizeDisposition v = codes "Settled" ∨
    standardizeDisposition v = codes "Dismissed on the Merits" ∨
    standardizeDisposition v = codes "Dismissed" ∨
    standardizeDisposition v = codes "Withdrawn" ∨
    standardizeDisposition v = codes "Awarded" ∨
    standardizeDisposition v = codes "Administrative" ∨
    (standardizeDisposition v = capitalizeStr (lowerStr v) ∧
     strContains (lowerStr v) (codes "settled") = false ∧
     strContains (lowerStr v) (codes "settlement") = false ∧
     strContains (lowerStr v) (codes "dismissed") = false ∧
     strContains (lowerStr v) (codes "dismissal") = false ∧
     strContains (lowerStr v) (codes "withdrawn") = false ∧
     strContains (lowerStr v) (codes "awarded") = false ∧
     strContains (lowerStr v) (codes "award") = false ∧
     strContains (lowerStr v) (codes "administrative") = false ∧
     strContains (lowerStr v) (codes "admin") = false) := by
  simp only [standardizeDisposition]
  split_ifs with h1 h2 h3 h4 h5 h6
  · tauto
  · tauto
  · tauto
  · tauto
  · tauto
  · tauto
  · simp only [Bool.or_eq_true, not_or, Bool.not_eq_true] at h1 h3 h5 h6
    refine Or.inr (Or.inr (Or.inr (Or.inr (Or.inr (Or.inr
      ⟨rfl, h1.1, h1.2, h3.1, h3.2, ?_, h5.1, h5.2, h6.1, h6.2⟩)))))
    simpa using h4

theorem standardize_idem (v : List Nat) :
    standardizeDisposition (standardizeDisposition v) = standardizeDisposition v := by
  rcases standardize_cases v with e | e | e | e | e | e |
    ⟨e, h1, h2, h3, h4, h5, h6, h7, h8, h9⟩
  · rw [e]; decide
  · rw [e]; decide
  · rw [e]; decide
  · rw [e]; decide
  · rw [e]; decide
  · rw [e]; decide
  · rw [e]
    simp [standardizeDisposition, lowerStr_capitalize_lowerStr,
      h1, h2, h3, h4, h5, h6, h7, h8, h9]

/-- C4: the disposition standardizer is idempotent, and the precedence of its
substring rules sends `"Case Dismissed on the Merits"` to
`Dismissed on the Merits`, not to `Dismissed`. -/
theorem c4_standardizer_idempotent_and_precedence :
    (∀ v : Option (List Nat),
      standardizeDispositionOpt (standardizeDispositionOpt v) =
        standardizeDispositionOpt v) ∧
    standardizeDisposition (codes "Case Dismissed on the Merits") =
      codes "Dismissed on the Merits" ∧
    (standardizeDisposition (codes "Case Dismissed on the Merits") ==
      codes "Dismissed") = false := by
  refine ⟨?_, by decide, by decide⟩
  intro v
  cases v with
  | none => rfl
  | some w =>
    simp only [standardizeDispositionOpt, standardize_idem]

/-- The net effect of `_calculate_prevailed_flags` on a record whose flags
start out `False`: the consumer flag is the award-and-positive mask minus the
settlement mask, the business flag is the dismiss/withdrawn/zero-award mask
minus the settlement mask. -/
theorem calc_flags_spec (d : Option (List Nat)) (a : Option ℚ) :
    (calcPrevailedFlags d a ⟨false, false⟩).consumer =
      (ciContains d (codes "award") && awardPos a && !ciContains d (codes "settle")) ∧
    (calcPrevailedFlags d a ⟨false, false⟩).business =
      (((ciContains d (codes "dismiss") || ciContains d (codes "withdrawn"))
         || (ciContains d (codes "award") && awardZero a))
        && !ciContains d (codes "settle")) := by
  simp only [calcPrevailedFlags]
  cases hA : ciContains d (codes "award") <;>
    cases hP : awardPos a <;>
      cases hZ : awardZero a <;>
        cases hD : ciContains d (codes "dismiss") <;>
          cases hW : ciContains d (codes "withdrawn") <;>
            cases hS : ciContains d (codes "settle") <;>
              simp [hA, hP, hZ, hD, hW, hS]

/-- C2: with no pre-set flags, `Consumer_Prevailed` is exactly
award-with-positive-amount, `Business_Prevailed` is exactly
dismiss-or-withdrawn-or-zero-award, and the settlement override (applied
last) forces both to false. -/
theorem c2_prevailed_flags_rules (d : Option (List Nat)) (a : Option ℚ) :
    (calcPrevailedFlags d a ⟨false, false⟩).consumer =
      (ciContains d (codes "award") && awardPos a && !ciContains d (codes "settle")) ∧
    (calcPrevailedFlags d a ⟨false, false⟩).business =
      (((ciContains d (codes "dismiss") || ciContains d (codes "withdrawn"))
         || (ciContains d (codes "award") && awardZero a))
        && !ciContains d (codes "settle")) :=
  calc_flags_spec d a

theorem awardPos_awardZero (a : Option ℚ) :
    awardPos a = true → awardZero a = false := by
  cases a with
  | none => intro h; exact absurd h (by simp [awardPos])
  | some x =>
    simp only [awardPos, awardZero, decide_eq_true_eq, decide_eq_false_iff_not]
    intro h hx
    rw [hx] at h
    exact lt_irrefl 0 h

/-- A disposition string produced by the pipeline (standardizer output or the
`"Unknown"` fill) never contains both "award" and one of "dismiss" /
"withdrawn". -/
theorem pipeline_award_exclusive (s : Option (List Nat)) :
    strContains (lowerStr (pipelineDisposition s)) (codes "award") = true →
    strContains (lowerStr (pipelineDisposition s)) (codes "dismiss") = false ∧
    strContains (lowerStr (pipelineDisposition s)) (codes "withdrawn") = false := by
  cases s with
  | none => decide
  | some v =>
    simp only [pipelineDisposition]
    rcases standardize_cases v with e | e | e | e | e | e |
      ⟨e, h1, h2, h3, h4, h5, h6, h7, h8, h9⟩
    · rw [e]; decide
    · rw [e]; decide
    · rw [e]; decide
    · rw [e]; decide
    · rw [e]; decide
    · rw [e]; decide
    · rw [e, lowerStr_capitalize_lowerStr]
      intro hA
      rw [h7] at hA
      exact Bool.noConfusion hA

/-- C3: for every record whose `Disposition_Type` comes out of the ingestion
pipeline (standardizer output or `"Unknown"` fill), the two prevailed flags
are never both true after enrichment. -/
theorem c3_flags_mutually_exclusive (s : Option (List Nat)) (a : Option ℚ) :
    ((calcPrevailedFlags (some (pipelineDisposition s)) a ⟨false, false⟩).consumer &&
     (calcPrevailedFlags (some (pipelineDisposition s)) a ⟨false, false⟩).business) = false := by
  obtain ⟨hc, hb⟩ := calc_flags_spec (some (pipelineDisposition s)) a
  rw [hc, hb]
  simp only [ciContains]
  cases hA : strContains (lowerStr (pipelineDisposition s)) (codes "award") with
  | false => simp [hA]
  | true =>
    obtain ⟨hD, hW⟩ := pipeline_award_exclusive s hA
    cases hP : awardPos a with
    | false => simp [hP]
    | true =>
      have hZ := awardPos_awardZero a hP
      simp [hA, hP, hD, hW, hZ]

/-- C6: the duration enricher computes `Date_Closed - Date_Filed` with no
sign check, so a record filed 2020-05-01 (day 18383) and closed 2020-01-01
(day 18262) gets `Case_Duration_Days = -121`, violating the stated
non-negativity invariant. -/
theorem c6_duration_negative_bug :
    caseDuration (some 18383) (some 18262) = some (-121) ∧ (-121 : Int) < 0 :=
  ⟨rfl, by decide⟩

/-- C5 counterexample: the column name `"ID"` has no exact match, no
case-insensitive match, no canonical-name match against `Case_ID`, and shares
no alias substring whose shorter string has length ≥ 4 (its length is 2) —
yet `_map_column` resolves it, because the code's length guard is
`len(name) >= 4 OR len(col) >= 4` and `"id"` occurs inside the alias
`"Case ID"`. -/
theorem c5_counterexample_short_id_matches :
    (aliasesCaseIdAAA.all fun n =>
      [codes "ID"].all fun c => !claimSubstringMatch n c) = true ∧
    findExact aliasesCaseIdAAA [codes "ID"] = none ∧
    findCaseInsensitive aliasesCaseIdAAA [codes "ID"] = none ∧
    ([codes "ID"].all fun c => !(upperStr c == upperStr (codes "Case_ID"))) = true ∧
    resolveColumn aliasesCaseIdAAA [codes "ID"] (codes "Case_ID") =
      some (codes "ID") := by
  refine ⟨by decide, by decide, by decide, by decide, by decide⟩

theorem findCaseInsensitive_eq_none (names cols : List (List Nat))
    (h : ∀ n ∈ names, ∀ c ∈ cols, (lowerStr c == lowerStr n) = false) :
    findCaseInsensitive names cols = none := by
  induction names with
  | nil => rfl
  | cons n rest ih =>
    have h1 : cols.find? (fun c => lowerStr c == lowerStr n) = none := by
      apply List.find?_eq_none.mpr
      intro c hc
      simp [h n (by simp) c hc]
    simp only [findCaseInsensitive, h1]
    exact ih fun m hm c hc => h m (by simp [hm]) c hc

theorem findPartial_eq_none (names cols : List (List Nat))
    (h : ∀ n ∈ names, ∀ c ∈ cols, partialPred n c = false) :
    findPartial names cols = none := by
  induction names with
  | nil => rfl
  | cons n rest ih =>
    have h1 : cols.find? (fun c => partialPred n c) = none := by
      apply List.find?_eq_none.mpr
      intro c hc
      simp [h n (by simp) c hc]
    simp only [findPartial, h1]
    exact ih fun m hm c hc => h m (by simp [hm]) c hc

/-- C5 amended: the substring tier fires when EITHER string (equivalently the
longer one) has length ≥ 4, so a column sharing no alias substring under that
weaker guard — and no exact, case-insensitive or canonical-name match —
resolves to absent. -/
theorem c5_amended_no_match_resolves_absent
    (names cols : List (List Nat)) (std : List Nat)
    (hex : ∀ n ∈ names, cols.contains n = false)
    (hci : ∀ n ∈ names, ∀ c ∈ cols, (lowerStr c == lowerStr n) = false)
    (hpar : ∀ n ∈ names, ∀ c ∈ cols, partialPred n c = false)
    (hcan : ∀ c ∈ cols, (upperStr c == upperStr std) = false) :
    resolveColumn names cols std = none := by
  have hfe : findExact names cols = none := by
    apply List.find?_eq_none.mpr
    intro n hn
    simpa using hex n hn
  have hfc := findCaseInsensitive_eq_none names cols hci
  have hfp := findPartial_eq_none names cols hpar
  have hfn : cols.find? (fun c => upperStr c == upperStr std) = none := by
    apply List.find?_eq_none.mpr
    intro c hc
    simp [hcan c hc]
  simp [resolveColumn, mapColumn, hfe, hfc, hfp, hfn]

/-- Witness for the amended C5 at a concrete input: the column `"Judge"`
shares no substring with any `case_id` alias, so the field resolves to
absent. -/
theorem c5_amended_witness :
    resolveColumn aliasesCaseIdAAA [codes "Judge"] (codes "Case_ID") = none :=
  c5_amended_no_match_resolves_absent aliasesCaseIdAAA [codes "Judge"]
    (codes "Case_ID") (by decide) (by decide) (by decide) (by decide)

/-! ### Lemmas for the deduplicator -/

theorem mem_enumFromK {k : Nat} {rows : List DRow} {p : Nat × DRow}
    (h : p ∈ enumFromK k rows) : k ≤ p.1 := by
  induction rows generalizing k with
  | nil => cases h
  | cons x xs ih =>
    rcases List.mem_cons.mp h with rfl | h2
    · exact le_refl _
    · exact le_trans (Nat.le_succ k) (ih h2)

theorem sorted_enumFromK (k : Nat) (rows : List DRow) :
    List.Pairwise (fun a b : Nat × DRow => a.1 < b.1) (enumFromK k rows) := by
  induction rows generalizing k with
  | nil => exact List.Pairwise.nil
  | cons x xs ih =>
    refine List.Pairwise.cons ?_ (ih (k + 1))
    intro q hq
    exact lt_of_lt_of_le (Nat.lt_succ_self k) (mem_enumFromK hq)

theorem bestGo_mem (b : Nat × DRow) (l : List (Nat × DRow)) :
    bestGo b l = b ∨ bestGo b l ∈ l := by
  induction l generalizing b with
  | nil => exact Or.inl rfl
  | cons p ps ih =>
    simp only [bestGo]
    by_cases hc : numNonNull b.2 < numNonNull p.2
    · rw [if_pos hc]
      rcases ih p with h | h
      · right; rw [h]; exact List.mem_cons_self _ _
      · right; exact List.mem_cons_of_mem _ h
    · rw [if_neg hc]
      rcases ih b with h | h
      · exact Or.inl h
      · right; exact List.mem_cons_of_mem _ h

theorem le_bestGo (b : Nat × DRow) (l : List (Nat × DRow)) :
    numNonNull b.2 ≤ numNonNull (bestGo b l).2 := by
  induction l generalizing b with
  | nil => exact le_refl _
  | cons p ps ih =>
    simp only [bestGo]
    by_cases hc : numNonNull b.2 < numNonNull p.2
    · rw [if_pos hc]; exact le_trans (le_of_lt hc) (ih p)
    · rw [if_neg hc]; exact ih b

theorem bestGo_ge_mem (b : Nat × DRow) (l : List (Nat × DRow)) :
    ∀ q ∈ l, numNonNull q.2 ≤ numNonNull (bestGo b l).2 := by
  induction l generalizing b with
  | nil => intro q hq; cases hq
  | cons p ps ih =>
    intro q hq
    simp only [bestGo]
    by_cases hc : numNonNull b.2 < numNonNull p.2
    · rw [if_pos hc]
      rcases List.mem_cons.mp hq with rfl | hq2
      · exact le_bestGo q ps
      · exact ih p q hq2
    · rw [if_neg hc]
      rcases List.mem_cons.mp hq with rfl | hq2
      · exact le_trans (le_of_not_lt hc) (le_bestGo b ps)
      · exact ih b q hq2

theorem bestGo_first_tie (l : List (Nat × DRow)) :
    ∀ b : Nat × DRow,
      List.Pairwise (fun a c : Nat × DRow => a.1 < c.1) (b :: l) →
      ∀ q ∈ b :: l, numNonNull q.2 = numNonNull (bestGo b l).2 →
        (bestGo b l).1 ≤ q.1 := by
  induction l with
  | nil =>
    intro b _ q hq he
    rcases List.mem_cons.mp hq with rfl | h
    · exact le_refl _
    · cases h
  | cons p ps ih =>
    intro b hs q hq he
    have hcons := List.pairwise_cons.mp hs
    have hb_lt_p : b.1 < p.1 := hcons.1 p (List.mem_cons_self _ _)
    have hcons' := List.pairwise_cons.mp hcons.2
    by_cases hc : numNonNull b.2 < numNonNull p.2
    · have hrw : bestGo b (p :: ps) = bestGo p ps := by simp [bestGo, hc]
      rw [hrw] at he ⊢
      rcases List.mem_cons.mp hq with rfl | hq2
      · exact absurd he (ne_of_lt (lt_of_lt_of_le hc (le_bestGo p ps)))
      · exact ih p hcons.2 q hq2 he
    · have hrw : bestGo b (p :: ps) = bestGo b ps := by simp [bestGo, hc]
      rw [hrw] at he ⊢
      have hsb : List.Pairwise (fun a c : Nat × DRow => a.1 < c.1) (b :: ps) := by
        refine List.pairwise_cons.mpr ⟨?_, hcons'.2⟩
        intro x hx
        exact lt_trans hb_lt_p (hcons'.1 x hx)
      rcases List.mem_cons.mp hq with rfl | hq2
      · exact ih q hsb q (List.mem_cons_self _ _) he
      rcases List.mem_cons.mp hq2 with rfl | hq3
      · have hpb : numNonNull q.2 ≤ numNonNull b.2 := le_of_not_lt hc
        have hbe : numNonNull b.2 = numNonNull (bestGo b ps).2 :=
          le_antisymm (le_bestGo b ps) (he ▸ hpb)
        exact le_trans (ih b hsb b (List.mem_cons_self _ _) hbe) (le_of_lt hb_lt_p)
      · exact ih b hsb q (List.mem_cons_of_mem _ hq3) he

/-- `idxmax` of a group with strictly increasing indices: the winner belongs
to the group, has maximal completeness, and on ties the smallest index. -/
theorem bestOf_spec (l : List (Nat × DRow)) (w : Nat × DRow)
    (hs : List.Pairwise (fun a b : Nat × DRow => a.1 < b.1) l)
    (hb : bestOf l = some w) :
    w ∈ l ∧ ∀ q ∈ l, numNonNull q.2 ≤ numNonNull w.2 ∧
      (numNonNull q.2 = numNonNull w.2 → w.1 ≤ q.1) := by
  cases l with
  | nil => cases hb
  | cons g gs =>
    have hw : w = bestGo g gs := by
      simp only [bestOf, Option.some.injEq] at hb
      exact hb.symm
    subst hw
    refine ⟨?_, ?_⟩
    · rcases bestGo_mem g gs with h | h
      · rw [h]; exact List.mem_cons_self _ _
      · exact List.mem_cons_of_mem _ h
    · intro q hq
      refine ⟨?_, fun he => bestGo_first_tie gs g hs q hq he⟩
      rcases List.mem_cons.mp hq with rfl | hq2
      · exact le_bestGo q gs
      · exact bestGo_ge_mem g gs q hq2

theorem pass1Step_sublist (cur : List (Nat × DRow)) (id : List Nat) :
    List.Sublist (pass1Step cur id) cur := by
  simp only [pass1Step]
  cases bestOf (cur.filter (fun p => p.2.caseId == id)) with
  | none => exact List.Sublist.refl _
  | some w => exact List.filter_sublist _

theorem foldl_pass1_sublist (ids : List (List Nat)) :
    ∀ cur : List (Nat × DRow), List.Sublist (ids.foldl pass1Step cur) cur := by
  induction ids with
  | nil => intro cur; exact List.Sublist.refl _
  | cons i rest ih =>
    intro cur
    exact (ih (pass1Step cur i)).trans (pass1Step_sublist cur i)

theorem pass2Step_sublist (snap cur : List (Nat × DRow))
    (k : List Nat × List Nat × Int) : List.Sublist (pass2Step snap cur k) cur := by
  simp only [pass2Step]
  cases bestOf (snap.filter (fun p => keyOf p.2 == some k)) with
  | none => exact List.Sublist.refl _
  | some w => exact List.filter_sublist _

theorem foldl_pass2_sublist (ks : List (List Nat × List Nat × Int)) :
    ∀ cur snap : List (Nat × DRow), List.Sublist (ks.foldl (pass2Step snap) cur) cur := by
  induction ks with
  | nil => intro cur snap; exact List.Sublist.refl _
  | cons k rest ih =>
    intro cur snap
    exact (ih (pass2Step snap cur k) snap).trans (pass2Step_sublist snap cur k)

theorem countP_idx_le_one (w : Nat) (l : List (Nat × DRow))
    (h : List.Pairwise (fun a b : Nat × DRow => a.1 < b.1) l) :
    l.countP (fun p => p.1 == w) ≤ 1 := by
  induction l with
  | nil => simp
  | cons x xs ih =>
    have hc := List.pairwise_cons.mp h
    rw [List.countP_cons]
    by_cases hx : x.1 = w
    · have hz : xs.countP (fun p => p.1 == w) = 0 := by
        apply List.countP_eq_zero.mpr
        intro a ha
        have hlt := hc.1 a ha
        simp only [beq_iff_eq]
        omega
      rw [hz]
      simp [hx]
    · have := ih hc.2
      simp only [beq_iff_eq, hx]
      simpa using this

theorem eq_of_idx_eq {l : List (Nat × DRow)} {a b : Nat × DRow}
    (h : List.Pairwise (fun a b : Nat × DRow => a.1 < b.1) l)
    (ha : a ∈ l) (hb : b ∈ l) (he : a.1 = b.1) : a = b := by
  by_contra hne
  have hlt := List.Pairwise.forall (R := fun a b : Nat × DRow => a.1 ≠ b.1)
    (fun x y hxy => hxy.symm)
    (h.imp (fun hab => Nat.ne_of_lt hab)) ha hb hne
  exact hlt he

theorem filter_filter_of_imp {α : Type} {f g : α → Bool}
    (h : ∀ a, g a = true → f a = true) (l : List α) :
    (l.filter f).filter g = l.filter g := by
  induction l with
  | nil => rfl
  | cons x xs ih =>
    by_cases hf : f x = true
    · simp [List.filter_cons, hf, ih]
    · have hg : g x = false := by
        cases hgx : g x with
        | true => exact absurd (h x hgx) hf
        | false => rfl
      simp [List.filter_cons, hf, hg, ih]

theorem mem_uniqueFirstAux {α : Type} [BEq α] [LawfulBEq α]
    (seen l : List α) (x : α) :
    x ∈ uniqueFirstAux seen l ↔ x ∈ l ∧ x ∉ seen := by
  induction l generalizing seen with
  | nil => simp [uniqueFirstAux]
  | cons y ys ih =>
    simp only [uniqueFirstAux]
    by_cases hy : seen.contains y = true
    · rw [if_pos hy]
      have hys : y ∈ seen := by simpa using hy
      rw [ih seen]
      constructor
      · rintro ⟨hx, hnx⟩
        exact ⟨List.mem_cons_of_mem _ hx, hnx⟩
      · rintro ⟨hx, hnx⟩
        rcases List.mem_cons.mp hx with rfl | hx2
        · exact absurd hys hnx
        · exact ⟨hx2, hnx⟩
    · rw [if_neg hy]
      have hyn : y ∉ seen := by simpa using hy
      constructor
      · intro hx
        rcases List.mem_cons.mp hx with rfl | hx2
        · exact ⟨List.mem_cons_self _ _, hyn⟩
        · have := (ih (y :: seen)).mp hx2
          refine ⟨List.mem_cons_of_mem _ this.1, fun hc => this.2 ?_⟩
          exact List.mem_cons_of_mem _ hc
      · rintro ⟨hx, hnx⟩
        by_cases hxy : x = y
        · subst hxy; exact List.mem_cons_self _ _
        · rcases List.mem_cons.mp hx with rfl | hx2
          · exact absurd rfl hxy
          · refine List.mem_cons_of_mem _ ((ih (y :: seen)).mpr ⟨hx2, ?_⟩)
            intro hc
            rcases List.mem_cons.mp hc with rfl | hc2
            · exact hxy rfl
            · exact hnx hc2

theorem pairwise_ne_uniqueFirstAux {α : Type} [BEq α] [LawfulBEq α]
    (seen l : List α) :
    List.Pairwise (fun a b : α => a ≠ b) (uniqueFirstAux seen l) := by
  induction l generalizing seen with
  | nil => exact List.Pairwise.nil
  | cons y ys ih =>
    simp only [uniqueFirstAux]
    by_cases hy : seen.contains y = true
    · rw [if_pos hy]; exact ih seen
    · rw [if_neg hy]
      refine List.pairwise_cons.mpr ⟨?_, ih (y :: seen)⟩
      intro b hb
      have hmem := (mem_uniqueFirstAux (y :: seen) ys b).mp hb
      intro he
      exact hmem.2 (he ▸ List.mem_cons_self _ _)

theorem countId_pass1Step_self (cur : List (Nat × DRow)) (id : List Nat)
    (h : List.Pairwise (fun a b : Nat × DRow => a.1 < b.1) cur) :
    countId (pass1Step cur id) id ≤ 1 := by
  simp only [pass1Step, countId]
  cases hb : bestOf (cur.filter (fun p => p.2.caseId == id)) with
  | none =>
    have hnil : cur.filter (fun p => p.2.caseId == id) = [] := by
      rcases hl : cur.filter (fun p => p.2.caseId == id) with _ | ⟨a, as⟩
      · exact hl
      · rw [hl] at hb; simp [bestOf] at hb
    have hz : cur.countP (fun p => p.2.caseId == id) = 0 := by
      rw [List.countP_eq_length_filter, hnil]
      rfl
    simp [hz]
  | some w =>
    have h1 : (cur.filter (fun p => !(p.2.caseId == id) || p.1 == w.1)).countP
        (fun p => p.2.caseId == id) ≤
        (cur.filter (fun p => !(p.2.caseId == id) || p.1 == w.1)).countP
        (fun p => p.1 == w.1) := by
      apply List.countP_mono_left
      intro a ha hpa
      have hpred := (List.mem_filter.mp ha).2
      rw [hpa] at hpred
      simpa using hpred
    have h2 : (cur.filter (fun p => !(p.2.caseId == id) || p.1 == w.1)).countP
        (fun p => p.1 == w.1) ≤ cur.countP (fun p => p.1 == w.1) :=
      (List.filter_sublist _).countP_le _
    exact le_trans h1 (le_trans h2 (countP_idx_le_one w.1 cur h))

theorem countId_foldl_le_one (ids : List (List Nat)) :
    ∀ cur : List (Nat × DRow),
      List.Pairwise (fun a b : Nat × DRow => a.1 < b.1) cur →
      ∀ id ∈ ids, countId (ids.foldl pass1Step cur) id ≤ 1 := by
  induction ids with
  | nil => intro cur _ id hid; cases hid
  | cons i rest ih =>
    intro cur h id hid
    simp only [List.foldl_cons]
    rcases List.mem_cons.mp hid with rfl | hid2
    · have h1 := countId_pass1Step_self cur id h
      exact le_trans ((foldl_pass1_sublist rest (pass1Step cur id)).countP_le _) h1
    · exact ih (pass1Step cur i)
        (List.Pairwise.sublist (pass1Step_sublist cur i) h) id hid2

theorem mem_dupCaseIds (l : List (Nat × DRow)) (id : List Nat)
    (h2 : 2 ≤ countId l id) : id ∈ dupCaseIds l := by
  have hpos : 0 < l.countP (fun p => p.2.caseId == id) := by
    have := h2
    simp only [countId] at this
    omega
  obtain ⟨p, hp, hpred⟩ := List.countP_pos_iff.mp hpos
  simp only [dupCaseIds, uniqueFirst]
  rw [mem_uniqueFirstAux]
  refine ⟨?_, List.not_mem_nil id⟩
  rw [List.mem_filter]
  constructor
  · exact List.mem_map.mpr ⟨p, hp, by simpa using hpred⟩
  · simpa using h2

theorem foldl_pass1_winner (ids : List (List Nat)) :
    ∀ cur : List (Nat × DRow),
      List.Pairwise (fun a b : Nat × DRow => a.1 < b.1) cur →
      List.Pairwise (fun a b : List Nat => a ≠ b) ids →
      ∀ p ∈ ids.foldl pass1Step cur, p.2.caseId ∈ ids →
        ∀ q ∈ cur.filter (fun r => r.2.caseId == p.2.caseId),
          numNonNull q.2 ≤ numNonNull p.2 ∧
          (numNonNull q.2 = numNonNull p.2 → p.1 ≤ q.1) := by
  induction ids with
  | nil => intro cur _ _ p _ hpid; cases hpid
  | cons i rest ih =>
    intro cur hs hd p hp hpid
    simp only [List.foldl_cons] at hp
    have hdc := List.pairwise_cons.mp hd
    by_cases hpi : p.2.caseId = i
    · have hp1 : p ∈ pass1Step cur i :=
        (foldl_pass1_sublist rest (pass1Step cur i)).subset hp
      rcases hb : bestOf (cur.filter (fun r => r.2.caseId == i)) with _ | w
      · exfalso
        have hcur : pass1Step cur i = cur := by
          simp only [pass1Step]; rw [hb]
        rw [hcur] at hp1
        have hpg : p ∈ cur.filter (fun r => r.2.caseId == i) :=
          List.mem_filter.mpr ⟨hp1, by simp [hpi]⟩
        rcases hl : cur.filter (fun r => r.2.caseId == i) with _ | ⟨a, as⟩
        · rw [hl] at hpg; cases hpg
        · rw [hl] at hb; simp [bestOf] at hb
      · have hstep : pass1Step cur i =
            cur.filter (fun r => !(r.2.caseId == i) || r.1 == w.1) := by
          simp only [pass1Step]; rw [hb]
        rw [hstep] at hp1
        obtain ⟨hpcur, hpredp⟩ := List.mem_filter.mp hp1
        have hpw1 : p.1 = w.1 := by
          rw [hpi] at hpredp
          simpa using hpredp
        have hsg : List.Pairwise (fun a b : Nat × DRow => a.1 < b.1)
            (cur.filter (fun r => r.2.caseId == i)) :=
          List.Pairwise.sublist (List.filter_sublist _) hs
        obtain ⟨hwmem, hwspec⟩ := bestOf_spec _ w hsg hb
        have hpg : p ∈ cur.filter (fun r => r.2.caseId == i) :=
          List.mem_filter.mpr ⟨hpcur, by simp [hpi]⟩
        have hpweq : p = w := eq_of_idx_eq hsg hpg hwmem hpw1
        intro q hq
        rw [hpi] at hq
        have hspec := hwspec q hq
        rw [hpweq]
        exact hspec
    · have hpir : p.2.caseId ∈ rest := by
        rcases List.mem_cons.mp hpid with h | h
        · exact absurd h hpi
        · exact h
      have hs' : List.Pairwise (fun a b : Nat × DRow => a.1 < b.1)
          (pass1Step cur i) := List.Pairwise.sublist (pass1Step_sublist cur i) hs
      have hmain := ih (pass1Step cur i) hs' hdc.2 p hp hpir
      have hfr : (pass1Step cur i).filter (fun r => r.2.caseId == p.2.caseId) =
          cur.filter (fun r => r.2.caseId == p.2.caseId) := by
        simp only [pass1Step]
        cases hb : bestOf (cur.filter (fun r => r.2.caseId == i)) with
        | none => rfl
        | some w =>
          apply filter_filter_of_imp
          intro a ha
          have hae : a.2.caseId = p.2.caseId := by simpa using ha
          have haf : (a.2.caseId == i) = false := by
            rw [hae]
            exact beq_eq_false_iff_ne.mpr hpi
          simp [haf]
      rw [hfr] at hmain
      exact hmain

theorem pairwise_ne_of_countId (l : List (Nat × DRow))
    (h : ∀ id, countId l id ≤ 1) :
    List.Pairwise (fun a b : Nat × DRow => a.2.caseId ≠ b.2.caseId) l := by
  induction l with
  | nil => exact List.Pairwise.nil
  | cons x xs ih =>
    refine List.pairwise_cons.mpr ⟨?_, ih ?_⟩
    · intro b hb he
      have hpos : 0 < xs.countP (fun p => p.2.caseId == x.2.caseId) :=
        List.countP_pos_iff.mpr ⟨b, hb, by simp [he.symm]⟩
      have hx := h x.2.caseId
      simp only [countId, List.countP_cons, beq_self_eq_true, if_pos] at hx
      omega
    · intro id
      have := h id
      simp only [countId, List.countP_cons] at this
      exact le_trans (Nat.le_add_right _ _) this

theorem noShared_of_pairwise (rows : List DRow)
    (h : List.Pairwise (fun a b : DRow => a.caseId ≠ b.caseId) rows) :
    noSharedNonUnknownCaseId rows = true := by
  induction rows with
  | nil => rfl
  | cons x xs ih =>
    have hc := List.pairwise_cons.mp h
    simp only [noSharedNonUnknownCaseId, pairwiseB, Bool.and_eq_true]
    refine ⟨List.all_eq_true.mpr ?_, ih hc.2⟩
    intro s hs
    have hne := hc.1 s hs
    simp [beq_eq_false_iff_ne.mpr hne]

/-- C1: after `_handle_duplicates`, no two surviving rows share the same
non-`"Unknown"` Case_ID; every surviving row comes from the input; and a
surviving row whose Case_ID was duplicated in the input is the most complete
row of its input group, ties broken by the smallest dataframe index (first
occurrence in input order). -/
theorem c1_deduplicator (rows : List DRow) :
    noSharedNonUnknownCaseId (handleDuplicates rows) = true ∧
    ∀ p ∈ handleDupsPass2 (handleDupsPass1 (enumFromK 0 rows)),
      p ∈ enumFromK 0 rows ∧
      (2 ≤ countId (enumFromK 0 rows) p.2.caseId →
        ∀ q ∈ enumFromK 0 rows, q.2.caseId = p.2.caseId →
          numNonNull q.2 ≤ numNonNull p.2 ∧
          (numNonNull q.2 = numNonNull p.2 → p.1 ≤ q.1)) := by
  have hs := sorted_enumFromK 0 rows
  have hsub1 : List.Sublist (handleDupsPass1 (enumFromK 0 rows)) (enumFromK 0 rows) :=
    foldl_pass1_sublist _ _
  have hsub2 : List.Sublist
      (handleDupsPass2 (handleDupsPass1 (enumFromK 0 rows)))
      (handleDupsPass1 (enumFromK 0 rows)) :=
    foldl_pass2_sublist _ _ _
  constructor
  · apply noShared_of_pairwise
    have hcnt : ∀ id,
        countId (handleDupsPass2 (handleDupsPass1 (enumFromK 0 rows))) id ≤ 1 := by
      intro id
      refine le_trans (hsub2.countP_le _) ?_
      by_cases h2 : 2 ≤ countId (enumFromK 0 rows) id
      · exact countId_foldl_le_one (dupCaseIds _) _ hs id (mem_dupCaseIds _ id h2)
      · refine le_trans (hsub1.countP_le _) ?_
        simp only [countId] at h2 ⊢
        omega
    exact List.Pairwise.map Prod.snd (fun a b hab => hab)
      (pairwise_ne_of_countId _ hcnt)
  · intro p hp
    refine ⟨hsub1.subset (hsub2.subset hp), ?_⟩
    intro h2 q hq he
    exact foldl_pass1_winner (dupCaseIds _) _ hs (pairwise_ne_uniqueFirstAux _ _)
      p (hsub2.subset hp) (mem_dupCaseIds _ _ h2) q
      (List.mem_filter.mpr ⟨hq, by simp [he]⟩)

/-- Witness for C1 at the specification's own example: two records sharing
`case_id = "ARB-2020-1001"`, one with 8 and one with 5 non-null fields,
reduce to the 8-field record, which dominates the 5-field one. -/
theorem c1_deduplicator_witness :
    handleDuplicates [row5ex, row8ex] = [row8ex] ∧
    numNonNull row5ex = 5 ∧ numNonNull row8ex = 8 ∧
    numNonNull row5ex ≤ numNonNull row8ex := by
  refine ⟨by decide, by decide, by decide, ?_⟩
  have h := (c1_deduplicator [row5ex, row8ex]).2 (1, row8ex) (by decide)
  exact (h.2 (by decide) (0, row5ex) (by decide) (by decide)).1

/-! ### Lemmas for the query matcher -/

theorem strContains_iff_occurs (s pat : List Nat) :
    strContains s pat = true ↔ pat <:+: s := by
  induction s with
  | nil =>
    simp only [strContains, List.isEmpty_iff, List.infix_nil]
  | cons c cs ih =>
    simp only [strContains, Bool.or_eq_true, ih, List.infix_cons_iff,
      List.isPrefixOf_iff_prefix]

theorem dropLit_some_prefix {pat s r : List Nat} (h : dropLit pat s = some r) :
    pat.isPrefixOf s = true := by
  by_cases hp : pat.isPrefixOf s = true
  · exact hp
  · unfold dropLit at h
    simp [hp] at h

theorem p2Term_of_against {s r : List Nat}
    (h : dropLit (codes " ruled for the consumer against ") s = some r) :
    p2Term s = true := by
  have hp := dropLit_some_prefix h
  have h1 : (codes " ruled for the consumer") <+:
      (codes " ruled for the consumer against ") := by decide
  have hp2 : (codes " ruled for the consumer") <+: s :=
    h1.trans (List.isPrefixOf_iff_prefix.mp hp)
  simp only [p2Term, Bool.or_eq_true]
  exact Or.inr (List.isPrefixOf_iff_prefix.mpr hp2)

theorem lazyGroup_mono (r : List Nat) :
    (lazyGroup p5TermB r).isSome = true → (lazyGroup p2Term r).isSome = true := by
  induction r with
  | nil =>
    have h5 : p5TermB [] = false := by decide
    simp [lazyGroup, h5]
  | cons c cs ih =>
    simp only [lazyGroup]
    by_cases h5 : p5TermB (c :: cs) = true
    · have h2 : p2Term (c :: cs) = true := by
        revert h5
        unfold p5TermB
        cases hd : dropLit (codes " ruled for the consumer against ") (c :: cs) with
        | none => intro h; cases h
        | some r3 => intro _; exact p2Term_of_against hd
      simp [h5, h2]
    · rw [if_neg h5]
      by_cases h2 : p2Term (c :: cs) = true
      · simp [h2]
      · rw [if_neg h2]
        by_cases hc : (c == 10) = true
        · simp [hc]
        · rw [if_neg hc]
          cases hlz : lazyGroup p5TermB cs with
          | none => simp
          | some m =>
            intro _
            have hih := ih (by simp [hlz])
            cases hlz2 : lazyGroup p2Term cs with
            | none => rw [hlz2] at hih; simp at hih
            | some m2 => rw [if_neg hc]; simp [hlz2]

theorem p5Scan_imp_p2Scan (r : List Nat) :
    (p5Scan r).isSome = true → (p2Scan r).isSome = true := by
  unfold p5Scan p2Scan
  cases h5 : lazyGroup p5TermB r with
  | none => simp
  | some m =>
    intro _
    have h := lazyGroup_mono r (by simp [h5])
    cases h2 : lazyGroup p2Term r with
    | none => rw [h2] at h; simp at h
    | some m2 => simp

theorem p5At_imp_p2At (s : List Nat) :
    (p5At s).isSome = true → (p2At s).isSome = true := by
  unfold p5At p2At
  cases hd : dropLit (codes "how many times has ") s with
  | none => simp
  | some r1 =>
    dsimp only
    cases ha : dropLit (codes "arbitrator ") r1 with
    | none => exact p5Scan_imp_p2Scan r1
    | some r2 =>
      dsimp only
      cases h52 : p5Scan r2 with
      | some x =>
        intro _
        cases h22 : p2Scan r2 with
        | none =>
          have h := p5Scan_imp_p2Scan r2 (by simp [h52])
          rw [h22] at h
          simp at h
        | some y => simp
      | none =>
        intro h51
        have h21 := p5Scan_imp_p2Scan r1 h51
        cases h22 : p2Scan r2 with
        | some y => simp
        | none => simpa using h21

theorem searchPos_imp {α β : Type} (f : List Nat → Option α)
    (g : List Nat → Option β)
    (h : ∀ s, (f s).isSome = true → (g s).isSome = true) :
    ∀ q, (searchPos f q).isSome = true → (searchPos g q).isSome = true := by
  intro q
  induction q with
  | nil => exact h []
  | cons c cs ih =>
    simp only [searchPos]
    cases hf : f (c :: cs) with
    | some x =>
      intro _
      have hg := h (c :: cs) (by simp [hf])
      cases hgv : g (c :: cs) with
      | none => rw [hgv] at hg; simp at hg
      | some y => simp
    | none =>
      intro hh
      cases hgv : g (c :: cs) with
      | some y => simp
      | none => exact ih hh

theorem classify_never_specific (q : List Nat) :
    (classifyQuery q == QueryIntent.specificRulings) = false := by
  unfold classifyQuery
  dsimp only
  split_ifs with h1 h2 h3 h4 h5
  · rfl
  · rfl
  · rfl
  · rfl
  · exact absurd (searchPos_imp p5At p2At p5At_imp_p2At (lowerStr q) h5) h2
  · rfl

/-- C8: no question string is ever dispatched to the fifth intent — every
match of the specific-respondent pattern also matches the earlier,
more general ruling-count pattern, which wins ("first matching pattern
wins"), so `_get_specific_rulings` with its two-entity answer template is
unreachable.  The app's own fifth sample query lands on the second intent. -/
theorem c8_fifth_intent_unreachable :
    classifyQuery (codes "How many times has Arbitrator David M. Taylor ruled for the consumer against AT&T?")
      = QueryIntent.rulings ∧
    ∀ q : List Nat, (classifyQuery q == QueryIntent.specificRulings) = false :=
  ⟨by decide, classify_never_specific⟩

/-- C7: the query matcher has no exception handling, and the partial-match
tier hands the query-extracted name to `str.contains` as a regular
expression; a name with an unbalanced parenthesis makes `re.compile` raise,
so the call aborts instead of returning an answer string. -/
theorem c7_regex_metacharacters_raise :
    processNaturalLanguageQuery (codes "How many arbitrations has (Smith had?")
      [qrowUnknown] = Except.error () := by
  decide

/-- C9 counterexample: for the question `"How many arbitrations has
Richard?"` with no matching arbitrator, the couldn't-find message quotes
`'richar'` — the extracted name is lower-cased and then `rstrip('had')`
removes the trailing `d` — so the arbitrator name from the question
(`Richard`, or even its lower-case form) does not appear verbatim. -/
theorem c9_counterexample_rstrip_mangles_name :
    processNaturalLanguageQuery (codes "How many arbitrations has Richard?")
      [qrowUnknown] = Except.ok (couldntFindArbMsg (codes "richar")) ∧
    strContains (couldntFindArbMsg (codes "richar")) (codes "Richard") = false ∧
    strContains (couldntFindArbMsg (codes "richar")) (codes "richard") = false := by
  refine ⟨by decide, by decide, by decide⟩

theorem caseCountTokenLoop_exhausted (name : List Nat) (data : List QRow)
    (parts : List (List Nat))
    (h : ∀ part ∈ parts, 2 < part.length →
      parensBalanced part = true ∧
      ∀ r ∈ data, strContains (lowerStr r.arbitrator) (stripParens part) = false) :
    caseCountTokenLoop name data parts = Except.ok (couldntFindArbMsg name) := by
  induction parts with
  | nil => rfl
  | cons part rest ih =>
    simp only [caseCountTokenLoop]
    by_cases hlen : 2 < part.length
    · obtain ⟨hbal, hnone⟩ := h part (List.mem_cons_self _ _) hlen
      have hfind : List.find? (fun r =>
          strContains (lowerStr r.arbitrator) (stripParens part)) data = none := by
        apply List.find?_eq_none.mpr
        intro r hr
        simp [hnone r hr]
      rw [if_pos hlen, if_neg (by simp [hbal]), hfind]
      exact ih fun p hp hl => h p (List.mem_cons_of_mem _ hp) hl
    · rw [if_neg hlen]
      exact ih fun p hp hl => h p (List.mem_cons_of_mem _ hp) hl

/-- C9 amended: when no resolution tier matches, the couldn't-find message
quotes — and therefore contains — the CLEANED query name: the extracted
name lower-cased, whitespace-trimmed, and with trailing `h`/`a`/`d`
characters stripped.  (For names that are already lower-case and do not end
in one of those letters, this is the extracted name itself.) -/
theorem c9_amended_message_quotes_cleaned_name
    (rawName : List Nat) (data : List QRow) (cleaned : List Nat)
    (hclean : cleaned = trimStr (rstripHAD (trimStr rawName)))
    (hex : ∀ r ∈ data, (lowerStr r.arbitrator == lowerStr cleaned) = false)
    (hbal : parensBalanced (lowerStr cleaned) = true)
    (hpart : ∀ r ∈ data,
      strContains (lowerStr r.arbitrator) (stripParens (lowerStr cleaned)) = false)
    (htok : ∀ part ∈ splitWS (lowerStr cleaned), 2 < part.length →
      parensBalanced part = true ∧
      ∀ r ∈ data, strContains (lowerStr r.arbitrator) (stripParens part) = false) :
    getArbitratorCaseCount rawName data = Except.ok (couldntFindArbMsg cleaned) ∧
    strContains (couldntFindArbMsg cleaned) cleaned = true := by
  constructor
  · have hfe : List.find? (fun r => lowerStr r.arbitrator == lowerStr cleaned)
        data = none := by
      apply List.find?_eq_none.mpr
      intro r hr
      simp [hex r hr]
    have hfp : List.find? (fun r =>
        strContains (lowerStr r.arbitrator) (stripParens (lowerStr cleaned)))
        data = none := by
      apply List.find?_eq_none.mpr
      intro r hr
      simp [hpart r hr]
    subst hclean
    unfold getArbitratorCaseCount
    dsimp only
    rw [hfe, if_neg (by simp [hbal]), hfp]
    exact caseCountTokenLoop_exhausted _ data _ htok
  · rw [strContains_iff_occurs]
    refine ⟨codes "I couldn" ++ apos ++
      codes "t find any cases for an arbitrator matching " ++ apos,
      apos ++ codes " in the dataset.", ?_⟩
    simp [couldntFindArbMsg, List.append_assoc]

/-- Witness for the amended C9: the question name `richard` cleans to
`richar`; with a dataset containing only `Unknown`, no tier matches and the
message quotes `richar`. -/
theorem c9_amended_witness :
    getArbitratorCaseCount (codes "richard") [qrowUnknown] =
      Except.ok (couldntFindArbMsg (codes "richar")) ∧
    strContains (couldntFindArbMsg (codes "richar")) (codes "richar") = true :=
  c9_amended_message_quotes_cleaned_name (codes "richard") [qrowUnknown]
    (codes "richar") (by decide) (by decide) (by decide) (by decide) (by decide)

/-- C10: the end-to-end example — seven rows for `John L. Smith Esq.`, the
question asks about `John Smith`; the cleaned name `john smit` fails the
exact and substring tiers, the token `john` resolves via the token fallback,
and the answer contains `7` and the resolved full name. -/
theorem c10_end_to_end_token_fallback :
    processNaturalLanguageQuery
      (codes "How many arbitrations has Arbitrator John Smith had?")
      (List.replicate 7 qrowJohn) =
      Except.ok (caseCountMsg (codes "John L. Smith Esq.") 7) ∧
    (List.replicate 7 qrowJohn).find?
      (fun r => lowerStr r.arbitrator == lowerStr (codes "john smit")) = none ∧
    (List.replicate 7 qrowJohn).find?
      (fun r => strContains (lowerStr r.arbitrator)
        (stripParens (lowerStr (codes "john smit")))) = none ∧
    strContains (caseCountMsg (codes "John L. Smith Esq.") 7) (codes "7") = true ∧
    strContains (caseCountMsg (codes "John L. Smith Esq.") 7)
      (codes "John L. Smith Esq.") = true := by
  refine ⟨by decide, by decide, by decide, by decide, by decide⟩

end LawFirm
